import Mathlib

set_option maxRecDepth 20000
set_option maxHeartbeats 1000000

/-!
Verification development for the LawMatics-SDK batch rewrite scripts.

The repository is a collection of Python scripts that scan C# test files and
rewrite textual patterns in place.  Each script is embedded below as a total
Lean function over the file's text (a `String`, or a `List String` of lines
when the script itself works line by line, or a `List Char` when character
level splicing is involved).  The regular expressions used by the scripts are
embedded through a small deterministic pattern language `Pat`; every regex
used by the scripts is free of essential backtracking (each greedy or lazy
sub-expression is followed by text that is disjoint from the characters the
sub-expression may consume), so the deterministic semantics below coincides
with Python's leftmost-match semantics on these patterns.  Determinism
arguments are recorded next to each pattern.
-/

/-! ## Basic character classes and substring search

`isWsChar` mirrors Python's notion of whitespace for `strip`/`\s`;
`isWordChar` mirrors the regex class `\w`; `pfx` is `str.startswith`,
`hasSub` is Python's `needle in hay`, and `replaceList` is
`hay.replace(old, new)` (all occurrences, left to right, non-overlapping). -/

def isWsChar (c : Char) : Bool := c == ' ' || c == '\t' || c == '\n' || c == '\r'

def isWordChar (c : Char) : Bool := c.isAlphanum || c == '_'

def lbrace : Char := Char.ofNat 123

def rbrace : Char := Char.ofNat 125

def pfx : List Char → List Char → Bool
  | [], _ => true
  | _ :: _, [] => false
  | c :: n, d :: h => c == d && pfx n h

def hasSub (n : List Char) : List Char → Bool
  | [] => pfx n []
  | c :: h2 => pfx n (c :: h2) || hasSub n h2

def containsSub (needle hay : String) : Bool := hasSub needle.data hay.data

/-- Python's `str.strip()` on the character list of a line. -/
def trimList (g : List Char) : List Char :=
  ((g.dropWhile isWsChar).reverse.dropWhile isWsChar).reverse

/-- Worker for `str.replace`: scans the text one character at a time; a
positive skip count means the current position lies inside the text of a
match that was already emitted as `new` (so `k` more characters are consumed
silently).  At skip `0`, a prefix match of `old` emits `new` and enters the
skip state for the remaining `old.length - 1` characters.  This is the usual
left-to-right non-overlapping replacement, written with structural recursion
so that it evaluates by kernel reduction. -/
def replaceGo (old new : List Char) : List Char → Nat → List Char
  | [], _ => []
  | _ :: s2, k + 1 => replaceGo old new s2 k
  | c :: s2, 0 =>
    if old ≠ [] ∧ pfx old (c :: s2) = true then
      new ++ replaceGo old new s2 (old.length - 1)
    else c :: replaceGo old new s2 0

/-- Python's `s.replace(old, new)` (with nonempty `old`, as in all uses by
the scripts). -/
def replaceList (old new : List Char) (s : List Char) : List Char :=
  replaceGo old new s 0

/-! ## Deterministic embedding of the scripts' regular expressions

A `Pat` is a continuation-style pattern.  `runPat` consumes input from the
current position and returns the list of pieces consumed by each node (in
order) together with the remaining input; the concatenation of the pieces is
the matched text (Python's `group(0)`), and individual capture groups are
recovered by indexing into the piece list.

  * `lit l k`      — the literal `l`
  * `ws1 k`/`ws0`  — `\s+` / `\s*` (maximal munch)
  * `word1`/`word0`— `\w+` / `\w*` (maximal munch)
  * `wordMid m k`  — `\w+m\w+` for a literal `m` of word characters: the
                     whole maximal word run is consumed (as Python's group
                     spanning the expression would be) provided `m` occurs
                     strictly inside it
  * `cls1 bad`/`cls0 bad` — `[^bad]+` / `[^bad]*` (maximal munch)
  * `lazyTo sub`   — `.*?` (DOTALL) followed by `sub`: shortest prefix such
                     that `sub` matches right after it
  * `lazyCls bad sub` — `[^bad]*?` followed by `sub`

Maximal munch agrees with Python here because in every pattern taken from the
scripts a greedy class is followed by a token that starts with a character
the class cannot consume, so giving characters back can never help. -/

inductive Pat where
  | done : Pat
  | lit : List Char → Pat → Pat
  | ws1 : Pat → Pat
  | ws0 : Pat → Pat
  | word1 : Pat → Pat
  | word0 : Pat → Pat
  | wordMid : List Char → Pat → Pat
  | cls1 : List Char → Pat → Pat
  | cls0 : List Char → Pat → Pat
  | lazyTo : Pat → Pat
  | lazyCls : List Char → Pat → Pat

def consCap (c : Char) : List (List Char) × List Char → List (List Char) × List Char
  | (p :: ps, r) => ((c :: p) :: ps, r)
  | ([], r) => ([[c]], r)

def patSize : Pat → Nat
  | .done => 1
  | .lit _ k => patSize k + 1
  | .ws1 k => patSize k + 1
  | .ws0 k => patSize k + 1
  | .word1 k => patSize k + 1
  | .word0 k => patSize k + 1
  | .wordMid _ k => patSize k + 1
  | .cls1 _ k => patSize k + 1
  | .cls0 _ k => patSize k + 1
  | .lazyTo sub => patSize sub + 1
  | .lazyCls _ sub => patSize sub + 1

/-- Fuelled pattern interpreter (structural recursion on the fuel, so that it
evaluates by kernel reduction).  Every recursive call strictly decreases
`patSize p + s.length` (continuation calls shrink the pattern, lazy calls
shrink the input), so fuel `patSize p + s.length + 1` — supplied by `runPat`
below — can never run out. -/
def runPatF : Nat → Pat → List Char → Option (List (List Char) × List Char)
  | 0, _, _ => none
  | fuel + 1, p, s =>
    match p with
    | .done => some ([], s)
    | .lit l k =>
      if pfx l s then (runPatF fuel k (s.drop l.length)).map (fun r => (l :: r.1, r.2))
      else none
    | .ws1 k =>
      let w := s.takeWhile isWsChar
      if w.isEmpty then none
      else (runPatF fuel k (s.drop w.length)).map (fun r => (w :: r.1, r.2))
    | .ws0 k =>
      let w := s.takeWhile isWsChar
      (runPatF fuel k (s.drop w.length)).map (fun r => (w :: r.1, r.2))
    | .word1 k =>
      let w := s.takeWhile isWordChar
      if w.isEmpty then none
      else (runPatF fuel k (s.drop w.length)).map (fun r => (w :: r.1, r.2))
    | .word0 k =>
      let w := s.takeWhile isWordChar
      (runPatF fuel k (s.drop w.length)).map (fun r => (w :: r.1, r.2))
    | .wordMid m k =>
      let w := s.takeWhile isWordChar
      if w.isEmpty then none
      else if hasSub m (w.drop 1).dropLast then
        (runPatF fuel k (s.drop w.length)).map (fun r => (w :: r.1, r.2))
      else none
    | .cls1 bad k =>
      let w := s.takeWhile (fun c => !(bad.contains c))
      if w.isEmpty then none
      else (runPatF fuel k (s.drop w.length)).map (fun r => (w :: r.1, r.2))
    | .cls0 bad k =>
      let w := s.takeWhile (fun c => !(bad.contains c))
      (runPatF fuel k (s.drop w.length)).map (fun r => (w :: r.1, r.2))
    | .lazyTo sub =>
      match runPatF fuel sub s with
      | some (caps, rest) => some ([] :: caps, rest)
      | none =>
        match s with
        | [] => none
        | c :: s2 => (runPatF fuel (.lazyTo sub) s2).map (consCap c)
    | .lazyCls bad sub =>
      match runPatF fuel sub s with
      | some (caps, rest) => some ([] :: caps, rest)
      | none =>
        match s with
        | [] => none
        | c :: s2 =>
          if bad.contains c then none
          else (runPatF fuel (.lazyCls bad sub) s2).map (consCap c)

/-- One match attempt of a pattern at the start of `s`. -/
def runPat (p : Pat) (s : List Char) : Option (List (List Char) × List Char) :=
  runPatF (patSize p + s.length + 1) p s

/-- Embedding of `re.sub(pattern, repl, s)`: scan left to right, replace each
non-overlapping match, continue after the match end; replacement text is not
rescanned.  The replacement function receives the capture pieces and the text
following the match (Python replacement closures read the original string
after `match.end()`, used by `fix_pagedresponse_tests.py` for its lookahead).
A match that consumes nothing is ignored (no pattern in the scripts can match
the empty string). -/
def reSubF (p : Pat) (repl : List (List Char) → List Char → List Char) :
    Nat → List Char → List Char
  | _, [] => []
  | 0, s => s
  | fuel + 1, c :: s2 =>
    match runPat p (c :: s2) with
    | some (caps, rest) =>
      if rest.length < (c :: s2).length then repl caps rest ++ reSubF p repl fuel rest
      else c :: reSubF p repl fuel s2
    | none => c :: reSubF p repl fuel s2

/-- Embedding of `re.sub(pattern, repl, s)`: scan left to right, replace each
non-overlapping match, continue after the match end; replacement text is not
rescanned.  The replacement function receives the capture pieces and the text
following the match (Python replacement closures read the original string
after `match.end()`, used by `fix_pagedresponse_tests.py` for its lookahead).
Fuel `s.length` suffices: every step shortens the remaining input, and a
match that consumes nothing is ignored (no pattern in the scripts can match
the empty string). -/
def reSub (p : Pat) (repl : List (List Char) → List Char → List Char)
    (s : List Char) : List Char :=
  reSubF p repl s.length s

def reSearchF (p : Pat) : Nat → List Char → Option (List (List Char))
  | _, [] => none
  | 0, _ => none
  | fuel + 1, c :: s2 =>
    match runPat p (c :: s2) with
    | some (caps, rest) =>
      if rest.length < (c :: s2).length then some caps else reSearchF p fuel s2
    | none => reSearchF p fuel s2

/-- Embedding of `re.search`: captures of the leftmost (consuming) match. -/
def reSearch (p : Pat) (s : List Char) : Option (List (List Char)) :=
  reSearchF p s.length s

def reFindAllF (p : Pat) : Nat → List Char → List (List (List Char))
  | _, [] => []
  | 0, _ => []
  | fuel + 1, c :: s2 =>
    match runPat p (c :: s2) with
    | some (caps, rest) =>
      if rest.length < (c :: s2).length then caps :: reFindAllF p fuel rest
      else reFindAllF p fuel s2
    | none => reFindAllF p fuel s2

/-- Embedding of `re.finditer`/`re.findall`: captures of all non-overlapping
matches, left to right. -/
def reFindAll (p : Pat) (s : List Char) : List (List (List Char)) :=
  reFindAllF p s.length s

/-! ## fix_all_pagedresponse.py — `fix_all_paged_response_tests`

The script splits a file into lines; for every line containing the literal
`JsonSerializer.Serialize(expectedResponse, _jsonOptions)` it scans backward
through the preceding (original) lines for the first stripped line containing
`var expectedResponse = new `, extracts the constructed type with
`re.search(r'new\s+(\w+(?:<[^>]+>)?)\s*{', prev_line)`, derives the wrapper
type, and inserts a `var apiResponse = ...` line before the serialization
line.  The serialization line itself is appended unchanged. -/

def serTriggerS : String := "JsonSerializer.Serialize(expectedResponse, _jsonOptions)"

def declTriggerS : String := "var expectedResponse = new "

/-- One attempt of `new\s+(\w+(?:<[^>]+>)?)\s*{` at the current position.
Deterministic reading of the regex: after `new` and at least one whitespace
character comes a maximal `\w+` run; if the next character is `<` the optional
group must consume `<[^>]+>` up to the first `>` (a shorter `[^>]+` cannot
expose a `>`, and skipping the optional group leaves `\s*{` facing `<`, which
fails, so no backtracking can succeed differently); then `\s*` and `{`. -/
def typeAt (s : List Char) : Option (List Char) :=
  if pfx "new".data s then
    let s1 := s.drop 3
    let w := s1.takeWhile isWsChar
    if w.isEmpty then none
    else
      let s2 := s1.drop w.length
      let t := s2.takeWhile isWordChar
      if t.isEmpty then none
      else
        let s3 := s2.drop t.length
        match s3 with
        | '<' :: s4 =>
          let inner := s4.takeWhile (fun c => !(c == '>'))
          if inner.isEmpty then none
          else
            match s4.drop inner.length with
            | '>' :: s5 =>
              match s5.dropWhile isWsChar with
              | c :: _ => if c == lbrace then some (t ++ '<' :: (inner ++ ['>'])) else none
              | [] => none
            | _ => none
        | _ =>
          match s3.dropWhile isWsChar with
          | c :: _ => if c == lbrace then some t else none
          | [] => none
  else none

/-- Leftmost match of `new\s+(\w+(?:<[^>]+>)?)\s*{` (`re.search` semantics). -/
def extractTypeL : List Char → Option (List Char)
  | [] => none
  | c :: s2 =>
    match typeAt (c :: s2) with
    | some t => some t
    | none => extractTypeL s2

/-- Type extraction applied to a stripped declaration line, as the script
runs the regex on `prev_line = lines[j].strip()`. -/
def extractDeclType (d : String) : Option (List Char) := extractTypeL (trimList d.data)

/-- One attempt of `PagedResponse<([^>]+)>` at the current position. -/
def innerAt (s : List Char) : Option (List Char) :=
  if pfx "PagedResponse<".data s then
    let s4 := s.drop 14
    let inner := s4.takeWhile (fun c => !(c == '>'))
    if inner.isEmpty then none
    else
      match s4.drop inner.length with
      | '>' :: _ => some inner
      | _ => none
  else none

/-- Leftmost match of `PagedResponse<([^>]+)>` (`re.search` semantics). -/
def extractInnerL : List Char → Option (List Char)
  | [] => none
  | c :: s2 =>
    match innerAt (c :: s2) with
    | some t => some t
    | none => extractInnerL s2

/-- Wrapper-type selection of `fix_all_pagedresponse.py` lines 63-73. -/
def wrapperType (t : List Char) : List Char :=
  if hasSub "PagedResponse".data t then
    match extractInnerL t with
    | some inner => "ApiResponse<PagedResponse<".data ++ inner ++ ">>".data
    | none => "ApiResponse<PagedResponse<>>".data
  else "ApiResponse<".data ++ t ++ ">".data

/-- Backward scan of lines 49-60: `above` holds the lines preceding the match,
most recent first; the first stripped line containing the declaration trigger
wins (Python walks `j = i-1, i-2, ...` and breaks at the first hit). -/
def resolveDecl (above : List String) : Option String :=
  above.find? (fun l => hasSub declTriggerS.data (trimList l.data))

/-- Wrapper line synthesis of lines 76-78: original leading whitespace is
counted  (`len(line) - len(line.lstrip())`) and re-emitted as spaces. -/
def mkWrapperLine (line : String) (t : List Char) : String :=
  let indent := (line.data.takeWhile isWsChar).length
  String.mk (List.replicate indent ' ' ++ "var apiResponse = new ".data ++ wrapperType t
    ++ " \x7b Data = expectedResponse \x7d;".data)

/-- Processing of a single line (lines 44-82): emit the wrapper line before a
serialization line whose `expectedResponse` declaration resolves and whose
type extracts; always emit the original line unchanged. -/
def serLineStep (above : List String) (line : String) : List String :=
  if containsSub serTriggerS line then
    match (resolveDecl above).bind extractDeclType with
    | some t => [mkWrapperLine line t, line]
    | none => [line]
  else [line]

def fixAllGo : List String → List String → List String
  | _, [] => []
  | above, l :: rest => serLineStep above l ++ fixAllGo (l :: above) rest

/-- Whole-file transformation of `fix_all_paged_response_tests` on the line
list of one file (the script splits on `\n`, processes, joins with `\n`). -/
def fixAllLines (ls : List String) : List String := fixAllGo [] ls

/-- Per-file processing inside the batch loop of lines 27-95: the whole body
is wrapped in `try/except Exception`, so an I/O failure on one file is
reported and that file is skipped. -/
def fixAllProcessFile (r : Except String (List String)) : Except String (List String) :=
  r.map fixAllLines

/-- Batch driver of `fix_all_pagedresponse.py`: each file is processed
independently; a failing file leaves the others untouched. -/
def fixAllBatch (files : List (Except String (List String))) :
    List (Except String (List String)) :=
  files.map fixAllProcessFile

/-! ## fix_pagedresponse_tests.py — `fix_paged_response_tests`

Pattern `(\s+var\s+(\w+)\s*=\s*new\s+PagedResponse<[^>]+>\s*\{[^}]*\}\s*;)`
with a replacement closure, followed by a file-wide
`re.sub(r'\s+var\s+jsonResponse\s*=\s*JsonSerializer\.Serialize\([^,]+,\s*_jsonOptions\)\s*;', '', content)`.
Each greedy piece is followed by a character its class excludes, so the
deterministic `Pat` semantics agrees with Python. -/

def pagedDeclPat : Pat :=
  .ws1 (.lit "var".data (.ws1 (.word1 (.ws0 (.lit "=".data (.ws0 (.lit "new".data
    (.ws1 (.lit "PagedResponse<".data (.cls1 ['>'] (.lit ">".data (.ws0 (.lit [lbrace]
    (.cls0 [rbrace] (.lit [rbrace] (.ws0 (.lit ";".data .done)))))))))))))))))

/-- Replacement closure `replace_paged_response` (lines 42-57).  `group(1)` is
the whole declaration (the outer capture spans the full pattern), `group(2)`
the variable name (piece 3 of `pagedDeclPat`); the guard looks 500 characters
past the match end for `ApiResponse<` and the variable name.  Note the
synthesized wrapper is parameterized by the literal `PagedResponse<>`. -/
def replacePagedCaps (caps : List (List Char)) (rest : List Char) : List Char :=
  let g0 := caps.join
  let varName := caps.getD 3 []
  let lookahead := rest.take 500
  if hasSub "ApiResponse<".data lookahead && hasSub varName lookahead then g0
  else
    g0 ++ "var apiResponse = new ApiResponse<PagedResponse<>> \x7b Data = ".data ++ varName
      ++ " \x7d;\n".data ++ g0
      ++ "var jsonResponse = JsonSerializer.Serialize(apiResponse, _jsonOptions);".data

def serRemovePat : Pat :=
  .ws1 (.lit "var".data (.ws1 (.lit "jsonResponse".data (.ws0 (.lit "=".data (.ws0
    (.lit "JsonSerializer.Serialize(".data (.cls1 [','] (.lit ",".data (.ws0
    (.lit "_jsonOptions)".data (.ws0 (.lit ";".data .done)))))))))))))

/-- Whole-file content transformation of `fix_paged_response_tests`
(lines 40-65): the declaration rewrite followed by the file-wide removal of
every whitespace-preceded `var jsonResponse = JsonSerializer.Serialize(..., _jsonOptions);`
statement. -/
def fixPagedContent (c : String) : String :=
  String.mk (reSub serRemovePat (fun _ _ => []) (reSub pagedDeclPat replacePagedCaps c.data))

/-! ## fix_single_object_tests.py — `fix_single_object_get_tests` -/

def serLineFull : List Char :=
  "var jsonResponse = JsonSerializer.Serialize(expectedResponse, _jsonOptions);".data

/-- Replacement text of lines 34-35. -/
def apiPair (t : List Char) : List Char :=
  "var apiResponse = new ApiResponse<".data ++ t ++ "> \x7b Data = expected".data ++ t
    ++ " \x7d;\n            var jsonResponse = JsonSerializer.Serialize(apiResponse, _jsonOptions);".data

/-- `re.findall(r'public async Task (\w+Async_WithValidId_Returns\w+)\(\)', content)`:
the captured name is the whole maximal word run (both `\w+` pieces are part of
the same capture), which must contain the literal strictly inside it. -/
def findNamePat : Pat :=
  .lit "public async Task ".data
    (.wordMid "Async_WithValidId_Returns".data (.lit "()".data .done))

/-- `rf'(\[Fact\]\s+public async Task {method_name}\(\)[^{{]*?\{{)(.*?)(\}}\s*\])'`
with `re.MULTILINE | re.DOTALL`.  Pieces: 0 `[Fact]`, 1 whitespace, 2 the
header literal, 3 the lazy `[^{]*?` run, 4 `{`, 5 the lazy body `(.*?)`,
6 `}`, 7 whitespace, 8 `]`; group 1 is pieces 0-4, group 2 piece 5, group 3
pieces 6-8. -/
def methodPat (name : List Char) : Pat :=
  .lit "[Fact]".data (.ws1 (.lit ("public async Task ".data ++ name ++ "()".data)
    (.lazyCls [lbrace] (.lit [lbrace]
      (.lazyTo (.lit [rbrace] (.ws0 (.lit "]".data .done))))))))

/-- `re.search(r'var expectedResponse = new (\w+)', method_body)`. -/
def modelNamePat : Pat := .lit "var expectedResponse = new ".data (.word1 .done)

/-- Per-method rewrite of lines 19-41 given the match decomposition: the
already-wrapped guard, the model-type extraction, the rename of the
declaration and the replacement of the serialization statement. -/
def methodRewrite (g0 g1 body g3 : List Char) : List Char × Bool :=
  if hasSub "new ApiResponse<".data body || hasSub "PagedResponse<".data body then (g0, false)
  else
    match reSearch modelNamePat body with
    | some mcaps =>
      let t := mcaps.getD 1 []
      let b1 := replaceList ("var expectedResponse = new ".data ++ t)
        ("var expected".data ++ t ++ " = new ".data ++ t) body
      let b2 := replaceList serLineFull (apiPair t) b1
      (g1 ++ b2 ++ g3, true)
    | none => (g0, false)

/-- The content update `content = content.replace(method_match.group(0), new_method)`
of line 40. -/
def applyMethodRewrite (content old new : List Char) : List Char :=
  replaceList old new content

def fixOneMethod (content : List Char) (name : List Char) : List Char × Bool :=
  match reSearch (methodPat name) content with
  | none => (content, false)
  | some caps =>
    let g0 := caps.join
    let g1 := (caps.take 5).join
    let body := caps.getD 5 []
    let g3 := (caps.drop 6).join
    let r := methodRewrite g0 g1 body g3
    if r.2 then (applyMethodRewrite content g0 r.1, true) else (content, false)

/-- Whole-file transformation of `fix_single_object_get_tests` (lines 4-48):
collect method names from the original content, then rewrite each matching
method in the accumulating content; the returned flag is the `modified`
result that decides the write-back. -/
def fixSingleContent (c : String) : String × Bool :=
  let names := (reFindAll findNamePat c.data).map (fun caps => caps.getD 1 [])
  let r := names.foldl (fun acc n =>
    let q := fixOneMethod acc.1 n
    (q.1, acc.2 || q.2)) (c.data, false)
  (String.mk r.1, r.2)

/-- Batch driver of `fix_single_object_tests.py` (lines 64-70): the per-file
function has no exception handler, so a raised I/O error propagates and the
remaining files are never processed. -/
def singleObjectBatch : List (Except String String) → List (String × Bool) × Option String
  | [] => ([], none)
  | .error e :: _ => ([], some e)
  | .ok c :: rest =>
    let r := singleObjectBatch rest
    (fixSingleContent c :: r.1, r.2)

/-- Driver counter of `fix_single_object_tests.py` lines 64-70: one increment
per file whose fixer returned `True`. -/
def totalFixesSingleDriver (files : List String) : Nat :=
  files.foldl (fun n f => if (fixSingleContent f).2 then n + 1 else n) 0

/-! ## quick_fix_remaining.py — `quick_fix_remaining`

For a serialization line at line `N`, the script takes the file prefix
`sed -n '1,Np'` and classifies it: if the whole prefix contains
`new PagedResponse<` anywhere it uses the `ApiResponse<PagedResponse<>>`
wrapper, otherwise if it contains the declaration trigger it extracts the
type with `re.search(r'var expectedResponse = new (\w+)', content)`. -/
def quickFixWrapper (content : String) : Option String :=
  if containsSub "new PagedResponse<" content then some "ApiResponse<PagedResponse<>>"
  else if containsSub "var expectedResponse = new " content then
    match reSearch modelNamePat content.data with
    | some caps => some (String.mk ("ApiResponse<".data ++ caps.getD 1 [] ++ ">".data))
    | none => none
  else none

/-! ## final_fix_script.py — `apply_api_response_wrapper`

The pattern
`(\[Fact\]\s+public async Task (\w+Async_WithValidId_Returns\w+)\(\)\s*\{)(.*?)(\})\s*(\[Fact\]|public class|\Z)`
has five capture groups, yet the replacement callback starts with
`before_brace, method_name, method_body, after_brace = match.groups()`,
unpacking the five-tuple into four names — a `ValueError` on every
invocation.  In addition the callback assigns `modified = True` without a
`nonlocal` declaration, so the enclosing function's `modified` flag (which
gates the write-back `if modified and new_content != content`) can never
become true.  The model below represents one found match of the pattern by
its parts. -/

def unpack4 (l : List String) : Except String (String × String × String × String) :=
  match l with
  | [a, b, c, d] => .ok (a, b, c, d)
  | _ => .error "ValueError: too many values to unpack (expected 4)"

/-- `re.search(r'var expected(\w*) = new (\w+)', method_body)`; pieces:
0 the literal, 1 the (possibly empty) suffix, 2 the literal, 3 the type. -/
def ffModelPat : Pat :=
  .lit "var expected".data (.word0 (.lit " = new ".data (.word1 .done)))

/-- `re.sub(r'var jsonResponse = JsonSerializer\.Serialize\((\w+), _jsonOptions\)', ...)`. -/
def ffSerPat : Pat :=
  .lit "var jsonResponse = JsonSerializer.Serialize(".data
    (.word1 (.lit ", _jsonOptions)".data .done))

/-- The callback `fix_test_method` of lines 14-45, applied to the list
`match.groups()` and to `match.group(0)`.  The initial unpacking raises
before any of the remaining (dead) code can run. -/
def fixTestMethodE (groups : List String) (g0 : String) : Except String String := do
  let (g1, _name, body, g4) ← unpack4 groups
  if containsSub "ApiResponse<" body || containsSub "PagedResponse<" body then pure g0
  else
    match reSearch ffModelPat body.data with
    | none => pure g0
    | some mcaps =>
      let suffix := mcaps.getD 1 []
      let t := mcaps.getD 3 []
      let varName := if suffix.isEmpty then "expected".data ++ t else "expected".data ++ suffix
      let b1 := replaceList ("var expected".data ++ suffix ++ " = new ".data ++ t)
        ("var ".data ++ varName ++ " = new ".data ++ t) body.data
      let b2 := reSub ffSerPat (fun _ _ =>
        "var apiResponse = new ApiResponse<".data ++ t ++ "> \x7b Data = ".data ++ varName
          ++ " \x7d;\n            var jsonResponse = JsonSerializer.Serialize(apiResponse, _jsonOptions)".data) b1
      pure (g1 ++ String.mk b2 ++ g4)

/-- `apply_api_response_wrapper` on a file whose content decomposes as
`pre ++ match ++ post` where the match has parts `g1` (header through `{`),
`name`, `body`, `g4` (`}`), `w` (the uncaptured `\s*`), `g5` (the
alternative).  An exception in the callback propagates out of `re.sub` and
out of the function — there is no handler in the driver loop.  On a normal
return the write-back is gated by the enclosing `modified`, which stays
`False` (the callback only ever set a local). -/
def applyApiResponseWrapperRun (pre g1 name body g4 w g5 post : String) :
    Except String (String × Bool) :=
  let content := pre ++ g1 ++ body ++ g4 ++ w ++ g5 ++ post
  let g0 := g1 ++ body ++ g4 ++ w ++ g5
  match fixTestMethodE [g1, name, body, g4, g5] g0 with
  | .error e => .error e
  | .ok repl =>
    let newContent := pre ++ repl ++ post
    let modified := false
    .ok (if modified = true ∧ ¬ (newContent = content) then (newContent, true)
         else (content, false))

/-! ## fix_response_patterns.py

Two passes per file: `fix_single_object_tests` (a stricter single-object
pattern) and `fix_paged_response_tests` (PaginationInfo completion).  The
driver adds one to `total_fixes` for each pass that modified the file. -/

/-- `(\[Fact\]\s+public async Task \w+Async_WithValidId_Returns\w+\(\)\s*{\s*// Arrange[^}]*?var expectedResponse = new \w+\{[^}]*?\};\s*var jsonResponse = JsonSerializer\.Serialize\(expectedResponse, _jsonOptions\);)`. -/
def rpMethodPat : Pat :=
  .lit "[Fact]".data (.ws1 (.lit "public async Task ".data
    (.wordMid "Async_WithValidId_Returns".data (.lit "()".data (.ws0 (.lit [lbrace]
    (.ws0 (.lit "// Arrange".data (.lazyCls [rbrace]
    (.lit "var expectedResponse = new ".data (.word1 (.lit [lbrace]
    (.lazyCls [rbrace] (.lit [rbrace, ';'] (.ws0
    (.lit "var jsonResponse = JsonSerializer.Serialize(expectedResponse, _jsonOptions);".data
      .done))))))))))))))))

/-- `re.search(r'var expectedResponse = new (\w+)\s*\{', test_code)`. -/
def rpModelPat : Pat :=
  .lit "var expectedResponse = new ".data (.word1 (.ws0 (.lit [lbrace] .done)))

/-- The two chained `str.replace` calls of lines 37-43. -/
def rpTransform (g t : List Char) : List Char :=
  replaceList serLineFull (apiPair t)
    (replaceList ("var expectedResponse = new ".data ++ t)
      ("var expected".data ++ t ++ " = new ".data ++ t) g)

/-- `fix_single_object_tests` of fix_response_patterns.py lines 11-53. -/
def fixSingleObjectTestsRP (c : String) : String × Bool :=
  let ms := reFindAll rpMethodPat c.data
  let r := ms.foldl (fun acc caps =>
    let g := caps.join
    if hasSub "ApiResponse<".data g || hasSub "new PagedResponse<".data g then acc
    else
      match reSearch rpModelPat g with
      | none => acc
      | some mcaps => (replaceList g (rpTransform g (mcaps.getD 1 [])) acc.1, true))
    (c.data, false)
  (String.mk r.1, r.2)

def endsWithChar (c : Char) (g : List Char) : Bool :=
  match g.getLast? with
  | some d => d == c
  | none => false

def rstripCommas (g : List Char) : List Char :=
  (g.reverse.dropWhile (fun c => c == ',')).reverse

/-- `new PaginationInfo\s*\{([^}]+)\}`; the group is piece 3. -/
def paginationPat : Pat :=
  .lit "new PaginationInfo".data (.ws0 (.lit [lbrace] (.cls1 [rbrace] (.lit [rbrace] .done))))

/-- Replacement closure `replace_pagination` of lines 65-86, including the
comma strip, the missing-property completion and the literal `\r\n` framing
of the rebuilt initializer. -/
def paginationRepl (caps : List (List Char)) (rest : List Char) : List Char :=
  let g0 := caps.join
  let g := caps.getD 3 []
  if !(hasSub "TotalPages".data g) || !(hasSub "HasNext".data g) then
    let pc := if endsWithChar ',' (trimList g) then rstripCommas g else g
    let missing := (if hasSub "TotalPages".data pc then [] else ["TotalPages = 1".data])
      ++ (if hasSub "HasNext".data pc then [] else ["HasNext = false".data])
    if missing.isEmpty then g0
    else
      "new PaginationInfo\r\n\x7b ".data ++ pc ++ ",\n                        ".data
        ++ List.intercalate ",\n                        ".data missing
        ++ "\r\n                        \x7d".data
  else g0

/-- `fix_paged_response_tests` of fix_response_patterns.py lines 55-96: the
modified flag compares the substituted text against a fresh read of the
file. -/
def fixPagedResponseTestsRP (c : String) : String × Bool :=
  let out := reSub paginationPat paginationRepl c.data
  (String.mk out, !(out == c.data))

/-- Per-file processing of the driver loop (lines 99-107): both passes run in
order (the second reads what the first wrote) and each contributes one to the
counter when it reports a modification. -/
def processFileRP (c : String) : Nat × String :=
  let r1 := fixSingleObjectTestsRP c
  let r2 := fixPagedResponseTestsRP r1.1
  ((if r1.2 then 1 else 0) + (if r2.2 then 1 else 0), r2.1)

/-- The `total_fixes` summary printed by fix_response_patterns.py line 109. -/
def totalFixesRP (files : List String) : Nat :=
  (files.map (fun f => (processFileRP f).1)).sum

/-- The number of distinct files whose on-disk content differs after the run. -/
def distinctModifiedRP (files : List String) : Nat :=
  (files.filter (fun f => !((processFileRP f).2 == f))).length

/-! ## fix_tests.py

Per file: skip when `_jsonOptions` already occurs; otherwise insert the
`_jsonOptions` field after the `_httpClient` field, and — only when the
constructor pattern also matches — insert the options initialization and
rewrite one-argument `JsonSerializer.Serialize(...)` calls, then write. -/

def httpPat : Pat := .ws1 (.lit "private readonly HttpClient _httpClient;".data .done)

def jsonOptionsField : List Char :=
  "        private readonly JsonSerializerOptions _jsonOptions;\n".data

/-- Replacement `r'\1\n' + json_options_field`. -/
def httpRepl (caps : List (List Char)) (_rest : List Char) : List Char :=
  caps.join ++ "\n".data ++ jsonOptionsField

def ctorPat : Pat :=
  .ws1 (.lit "BaseAddress = new Uri(_options.BaseUrl)".data
    (.ws0 (.lit [rbrace] (.ws0 (.lit ";".data .done)))))

def jsonOptionsInit : List Char :=
  ("            \n            // Initialize JSON options to match BaseClient\n            _jsonOptions = new JsonSerializerOptions\n            \x7b\n                PropertyNamingPolicy = JsonNamingPolicy.SnakeCaseLower,\n                DefaultIgnoreCondition = System.Text.Json.Serialization.JsonIgnoreCondition.WhenWritingNull,\n                Converters = \x7b new System.Text.Json.Serialization.JsonStringEnumConverter() \x7d\n            \x7d;").data

/-- Replacement `r'\1' + json_options_init`. -/
def ctorRepl (caps : List (List Char)) (_rest : List Char) : List Char :=
  caps.join ++ jsonOptionsInit

/-- `JsonSerializer\.Serialize\(([^,)]+)\)`; the argument is piece 1. -/
def serUpdatePat : Pat :=
  .lit "JsonSerializer.Serialize(".data (.cls1 [',', ')'] (.lit ")".data .done))

/-- Replacement `r'JsonSerializer.Serialize(\1, _jsonOptions)'`. -/
def serUpdateRepl (caps : List (List Char)) (_rest : List Char) : List Char :=
  "JsonSerializer.Serialize(".data ++ caps.getD 1 [] ++ ", _jsonOptions)".data

/-- Per-file behaviour of fix_tests.py lines 34-78.  `none` means the file is
not written (already marked, pattern missing, or constructor missing);
`some c2` means `c2` is written back. -/
def fixTestsFile (c : String) : Option String :=
  if containsSub "_jsonOptions" c then none
  else
    match reSearch httpPat c.data with
    | none => none
    | some _ =>
      let c1 := reSub httpPat httpRepl c.data
      match reSearch ctorPat c1 with
      | none => none
      | some _ => some (String.mk (reSub serUpdatePat serUpdateRepl (reSub ctorPat ctorRepl c1)))

/-! ## Concrete inputs used by the theorems below -/

/-- A minimal PagedResponse test fragment for fix_all_pagedresponse.py: a
declaration line followed by its serialization line. -/
def exC1lines : List String :=
  ["        var expectedResponse = new PagedResponse<Contact> \x7b Data = items \x7d;",
   "        var jsonResponse = JsonSerializer.Serialize(expectedResponse, _jsonOptions);"]

/-- The same shape with a different model type, used for the serialization
re-pointing claim. -/
def exC7lines : List String :=
  ["        var expectedResponse = new PagedResponse<Matter> \x7b Data = items \x7d;",
   "        var jsonResponse = JsonSerializer.Serialize(expectedResponse, _jsonOptions);"]

/-- A declaration matched by `pagedDeclPat` (leading whitespace included, as
the `\s+` of the pattern requires). -/
def exC2decl : String :=
  "\n        var expectedResponse = new PagedResponse<Contact> \x7b Data = items \x7d;"

/-- The capture pieces of the declaration pattern on `exC2decl`. -/
def exC2caps : List (List Char) :=
  ((runPat pagedDeclPat exC2decl.data).map Prod.fst).getD []

/-- A file with one PagedResponse declaration plus, further down and outside
the declaration's matched span, an unrelated serialization statement of a
different method. -/
def exC3content : String :=
  "        var expectedResponse = new PagedResponse<Contact> \x7b Data = items \x7d;\n        var jsonResponse = JsonSerializer.Serialize(expectedResponse, _jsonOptions);\n        Assert.NotNull(result);\n        var otherDto = BuildOther();\n        var jsonResponse = JsonSerializer.Serialize(otherDto, _jsonOptions);"

/-- File prefix seen by quick_fix_remaining.py: an early PagedResponse
declaration, then a nearer single-object declaration for the same variable,
then the serialization line. -/
def exC4content : String :=
  "        var expectedResponse = new PagedResponse<Contact> \x7b \x7d;\n        await RunFirst();\n        var expectedResponse = new Contact \x7b Id = 1 \x7d;\n        var jsonResponse = JsonSerializer.Serialize(expectedResponse, _jsonOptions);"

/-- The lines above the serialization line of `exC4content`, most recent
first, as consumed by the backward scan of fix_all_pagedresponse.py. -/
def exC4above : List String :=
  ["        var expectedResponse = new Contact \x7b Id = 1 \x7d;",
   "        await RunFirst();",
   "        var expectedResponse = new PagedResponse<Contact> \x7b \x7d;"]

/-- Lines preceding the declaration variants used by the C4 witness. -/
def exC4newer : List String := ["        var request = BuildRequest();"]

def exC4decl : String := "        var expectedResponse = new Contact \x7b Id = 1 \x7d;"

def exC4older : List String :=
  ["        var expectedResponse = new PagedResponse<Contact> \x7b \x7d;"]

/-- A declaration whose generic bracket is never closed, so the extraction
regex of fix_all_pagedresponse.py has no match. -/
def exC5above : List String :=
  ["        var expectedResponse = new PagedResponse<Contact \x7b"]

def exC5line : String :=
  "            var jsonResponse = JsonSerializer.Serialize(expectedResponse, _jsonOptions);"

/-- Parts of a test method matched by the final_fix_script.py pattern: a
single-object test that needs the wrapper. -/
def exC6g1 : String :=
  "[Fact]\n        public async Task GetContactAsync_WithValidId_ReturnsContact()\n        \x7b"

def exC6name : String := "GetContactAsync_WithValidId_ReturnsContact"

def exC6body : String :=
  "\n            // Arrange\n            var expected = new Contact \x7b Id = 1 \x7d;\n            var jsonResponse = JsonSerializer.Serialize(expected, _jsonOptions);\n        "

def exC6g4 : String := "\x7d"

def exC6w : String := "\n\n        "

def exC6g5 : String := "[Fact]"

def exC6pre : String := "public class ContactsClientTests\n\x7b\n    "

def exC6post : String := "\n    public async Task Later() \x7b \x7d\n\x7d"

/-- Line lists for the batch-isolation theorem and counterexample. -/
def exC8lines : List String :=
  ["        var expectedResponse = new PagedResponse<Expense> \x7b Data = items \x7d;",
   "        var jsonResponse = JsonSerializer.Serialize(expectedResponse, _jsonOptions);"]

def exC8file : String := "public class ExpensesClientTests \x7b \x7d"

/-- A file in which the single-object pass and the PaginationInfo pass of
fix_response_patterns.py both fire. -/
def exC9file : String :=
  "[Fact]\n        public async Task GetContactAsync_WithValidId_ReturnsContact()\n        \x7b\n            // Arrange\n            var expectedResponse = new Contact\x7b Id = 1 \x7d;\n            var jsonResponse = JsonSerializer.Serialize(expectedResponse, _jsonOptions);\n        \x7d\n\n        var page = new PaginationInfo \x7b CurrentPage = 1 \x7d;"

/-- A test file exercised by fix_tests.py: not yet marked, containing both
the `_httpClient` field and the constructor pattern, plus a one-argument
serialize call. -/
def exC10file : String :=
  "public class CommentsClientTests\n\x7b\n    private readonly HttpClient _httpClient;\n\n    public CommentsClientTests()\n    \x7b\n        _httpClient = new HttpClient\n        \x7b\n            BaseAddress = new Uri(_options.BaseUrl)\n        \x7d;\n        var json = JsonSerializer.Serialize(request);\n    \x7d\n\x7d"

/-- A file already carrying the `_jsonOptions` marker. -/
def exC10marked : String :=
  "public class MarkedTests \x7b private readonly JsonSerializerOptions _jsonOptions; \x7d"

/-! ## Shared lemmas about the string primitives -/

theorem pfx_append_ext (n : List Char) :
    ∀ (s t : List Char), pfx n s = true → pfx n (s ++ t) = true := by
  induction n with
  | nil => intro s t _; rfl
  | cons c n ih =>
    intro s t h
    cases s with
    | nil => simp [pfx] at h
    | cons d s2 =>
      simp only [pfx, Bool.and_eq_true] at h
      simp only [List.cons_append, pfx, Bool.and_eq_true]
      exact ⟨h.1, ih s2 t h.2⟩

theorem pfx_self_append (n t : List Char) : pfx n (n ++ t) = true := by
  induction n with
  | nil => rfl
  | cons c n ih =>
    simp only [List.cons_append, pfx, Bool.and_eq_true]
    exact ⟨by simp, ih⟩

theorem pfx_nil_true {n : List Char} (h : pfx n [] = true) : n = [] := by
  cases n with
  | nil => rfl
  | cons c n => simp [pfx] at h

theorem hasSub_nil_needle : ∀ h : List Char, hasSub [] h = true := by
  intro h
  cases h with
  | nil => rfl
  | cons c h2 => simp [hasSub, pfx]

theorem hasSub_cons (n : List Char) (c : Char) (t : List Char) (h : hasSub n t = true) :
    hasSub n (c :: t) = true := by
  simp only [hasSub, Bool.or_eq_true]
  exact Or.inr h

theorem hasSub_append_right (n a b : List Char) (h : hasSub n b = true) :
    hasSub n (a ++ b) = true := by
  induction a with
  | nil => simpa using h
  | cons c a ih => simpa using hasSub_cons n c (a ++ b) ih

theorem hasSub_append_left (n a b : List Char) (h : hasSub n a = true) :
    hasSub n (a ++ b) = true := by
  induction a with
  | nil =>
    have hn : n = [] := pfx_nil_true (by simpa [hasSub] using h)
    subst hn
    exact hasSub_nil_needle b
  | cons c a ih =>
    simp only [hasSub, Bool.or_eq_true] at h
    rcases h with h | h
    · simp only [List.cons_append, hasSub, Bool.or_eq_true]
      left
      have := pfx_append_ext n (c :: a) b h
      simpa using this
    · simp only [List.cons_append]
      exact hasSub_cons n c (a ++ b) (ih h)

theorem hasSub_here (n t : List Char) : hasSub n (n ++ t) = true := by
  cases n with
  | nil => exact hasSub_nil_needle t
  | cons c n2 =>
    simp only [List.cons_append, hasSub, Bool.or_eq_true]
    left
    have := pfx_self_append (c :: n2) t
    simpa using this

theorem replaceGo_no_occ (old new : List Char) :
    ∀ (s : List Char), hasSub old s = false → replaceGo old new s 0 = s := by
  intro s
  induction s with
  | nil => intro _; rfl
  | cons c s2 ih =>
    intro h
    have h2 : pfx old (c :: s2) = false ∧ hasSub old s2 = false := by
      simpa [hasSub] using h
    simp only [replaceGo]
    rw [if_neg (by simp [h2.1])]
    exact congrArg (c :: ·) (ih h2.2)

theorem replaceList_no_occ (old new : List Char) (s : List Char)
    (h : hasSub old s = false) : replaceList old new s = s :=
  replaceGo_no_occ old new s h

theorem replaceGo_skip (old new : List Char) :
    ∀ (x s : List Char), replaceGo old new (x ++ s) x.length = replaceGo old new s 0 := by
  intro x
  induction x with
  | nil => intro s; cases s <;> rfl
  | cons d x ih =>
    intro s
    simp only [List.cons_append, List.length_cons]
    simp only [replaceGo]
    exact ih s

theorem replaceGo_first (old new : List Char) (hne : old ≠ []) :
    ∀ (pre post : List Char),
      (∀ i, i < pre.length → pfx old ((pre ++ old ++ post).drop i) = false) →
      replaceGo old new (pre ++ old ++ post) 0 = pre ++ new ++ replaceGo old new post 0 := by
  intro pre
  induction pre with
  | nil =>
    intro post _
    cases ho : old with
    | nil => exact absurd ho hne
    | cons c o2 =>
      have hp : pfx (c :: o2) ((c :: o2) ++ post) = true := pfx_self_append (c :: o2) post
      simp only [List.nil_append, List.cons_append]
      simp only [replaceGo]
      rw [if_pos ⟨by simp, by simpa using hp⟩]
      have hlen : (c :: o2).length - 1 = o2.length := by simp
      rw [hlen, replaceGo_skip (c :: o2) new o2 post]
  | cons c pre2 ih =>
    intro post hp
    have h0 : pfx old (((c :: pre2) ++ old ++ post).drop 0) = false := hp 0 (by simp)
    simp only [List.drop_zero, List.cons_append] at h0
    simp only [List.cons_append]
    simp only [replaceGo]
    rw [if_neg (by intro hc; rw [hc.2] at h0; simp at h0)]
    have hrec := ih post (by
      intro i hi
      have := hp (i + 1) (by simpa using Nat.succ_lt_succ hi)
      simpa using this)
    rw [hrec]

theorem replaceList_first (old new : List Char) (hne : old ≠ [])
    (pre post : List Char)
    (hfirst : ∀ i, i < pre.length → pfx old ((pre ++ old ++ post).drop i) = false) :
    replaceList old new (pre ++ old ++ post) = pre ++ new ++ replaceList old new post :=
  replaceGo_first old new hne pre post hfirst

theorem reSubF_search_inserts (p : Pat) (repl : List (List Char) → List Char → List Char)
    (needle : List Char)
    (hrepl : ∀ caps rest, hasSub needle (repl caps rest) = true) :
    ∀ (fuel : Nat) (s : List Char) (caps0 : List (List Char)),
      reSearchF p fuel s = some caps0 → hasSub needle (reSubF p repl fuel s) = true := by
  intro fuel
  induction fuel with
  | zero =>
    intro s caps0 h
    cases s <;> simp [reSearchF] at h
  | succ fuel ih =>
    intro s caps0 h
    cases s with
    | nil => simp [reSearchF] at h
    | cons c s2 =>
      cases hr : runPat p (c :: s2) with
      | none =>
        simp only [reSearchF, hr] at h
        simp only [reSubF, hr]
        exact hasSub_cons _ _ _ (ih s2 caps0 h)
      | some r =>
        obtain ⟨caps, rest⟩ := r
        simp only [reSearchF, hr] at h
        simp only [reSubF, hr]
        by_cases hlt : rest.length < (c :: s2).length
        · rw [if_pos hlt]
          exact hasSub_append_left needle _ _ (hrepl caps rest)
        · rw [if_neg hlt]
          rw [if_neg hlt] at h
          exact hasSub_cons _ _ _ (ih s2 caps0 h)

theorem reSub_search_inserts (p : Pat) (repl : List (List Char) → List Char → List Char)
    (needle : List Char)
    (hrepl : ∀ caps rest, hasSub needle (repl caps rest) = true)
    (s : List Char) (caps0 : List (List Char)) (h : reSearch p s = some caps0) :
    hasSub needle (reSub p repl s) = true :=
  reSubF_search_inserts p repl needle hrepl s.length s caps0 h

theorem reSubF_keeps_or_inserts (p : Pat) (repl : List (List Char) → List Char → List Char)
    (needle : List Char)
    (hrepl : ∀ caps rest, hasSub needle (repl caps rest) = true) :
    ∀ (fuel : Nat) (s : List Char),
      reSubF p repl fuel s = s ∨ hasSub needle (reSubF p repl fuel s) = true := by
  intro fuel
  induction fuel with
  | zero =>
    intro s
    cases s with
    | nil => left; rfl
    | cons c s2 => left; simp [reSubF]
  | succ fuel ih =>
    intro s
    cases s with
    | nil => left; rfl
    | cons c s2 =>
      cases hr : runPat p (c :: s2) with
      | none =>
        simp only [reSubF, hr]
        rcases ih s2 with h | h
        · left; rw [h]
        · right; exact hasSub_cons _ _ _ h
      | some r =>
        obtain ⟨caps, rest⟩ := r
        simp only [reSubF, hr]
        by_cases hlt : rest.length < (c :: s2).length
        · rw [if_pos hlt]
          right
          exact hasSub_append_left needle _ _ (hrepl caps rest)
        · rw [if_neg hlt]
          rcases ih s2 with h | h
          · left; rw [h]
          · right; exact hasSub_cons _ _ _ h

theorem reSub_keeps_or_inserts (p : Pat) (repl : List (List Char) → List Char → List Char)
    (needle : List Char)
    (hrepl : ∀ caps rest, hasSub needle (repl caps rest) = true)
    (s : List Char) :
    reSub p repl s = s ∨ hasSub needle (reSub p repl s) = true :=
  reSubF_keeps_or_inserts p repl needle hrepl s.length s

theorem serLineStep_shape (above : List String) (l : String) :
    serLineStep above l = [l] ∨ ∃ w, serLineStep above l = [w, l] := by
  unfold serLineStep
  by_cases hc : containsSub serTriggerS l = true
  · rw [if_pos hc]
    cases ho : (resolveDecl above).bind extractDeclType with
    | none => left; rfl
    | some t => right; exact ⟨_, rfl⟩
  · rw [if_neg hc]
    left
    rfl

theorem sublist_fixAllGo : ∀ (above ls : List String), ls.Sublist (fixAllGo above ls)
  | _, [] => by simp [fixAllGo]
  | above, l :: rest => by
    rw [fixAllGo]
    rcases serLineStep_shape above l with h | ⟨w, h⟩
    · rw [h]
      exact (sublist_fixAllGo (l :: above) rest).cons₂ l
    · rw [h]
      exact ((sublist_fixAllGo (l :: above) rest).cons₂ l).cons w

theorem totalFixesSingleDriver_shift (files : List String) : ∀ n : Nat,
    files.foldl (fun n f => if (fixSingleContent f).2 then n + 1 else n) n
      = n + (files.filter (fun f => (fixSingleContent f).2)).length := by
  induction files with
  | nil => intro n; simp
  | cons f fs ih =>
    intro n
    simp only [List.foldl_cons, List.filter_cons]
    by_cases h : (fixSingleContent f).2 = true
    · rw [if_pos h, ih, if_pos h]
      simp only [List.length_cons]
      omega
    · rw [if_neg h, ih, if_neg h]

/-! ## Claim theorems -/

/-- C1: the claimed idempotence fails on the code.  Running the
fix_all_pagedresponse.py rewrite twice on a file with one PagedResponse
declaration and its serialization line does not reproduce the first run's
output: the first run leaves the serialization call — the very trigger of the
match — unchanged, so the second run matches again and inserts a duplicate
wrapper line. -/
theorem fixAllPaged_second_run_changes_output :
    fixAllLines (fixAllLines exC1lines) ≠ fixAllLines exC1lines := by decide

/-- C2: on a matched variable of resolved type `PagedResponse<Contact>`, the
synthesizer `replace_paged_response` of fix_pagedresponse_tests.py emits the
wrapper with an empty type argument, `ApiResponse<PagedResponse<>>`, and not
the full nested type: the output contains the empty-argument wrapper and does
not contain `ApiResponse<PagedResponse<Contact>>`.  The third conjunct shows
the intended behaviour, implemented by fix_all_pagedresponse.py, which does
re-embed the inner type parameter text. -/
theorem replacePaged_emits_empty_type_argument :
    hasSub "ApiResponse<PagedResponse<>>".data (replacePagedCaps exC2caps []) = true ∧
    hasSub "ApiResponse<PagedResponse<Contact>>".data (replacePagedCaps exC2caps []) = false ∧
    wrapperType "PagedResponse<Contact>".data = "ApiResponse<PagedResponse<Contact>>".data :=
  ⟨by decide, by decide, by decide⟩

/-- C3 (counterexample): rewriting the PagedResponse declaration match of
`exC3content` with fix_pagedresponse_tests.py alters text far outside the
match's span: the file-wide second substitution deletes the serialization
statement of an unrelated method (`Serialize(otherDto, ...)`), while the
surrounding lines of that method survive.  Text outside the matched span is
therefore not byte-identical after the rewrite. -/
theorem fixPagedContent_deletes_text_outside_match_span :
    containsSub "JsonSerializer.Serialize(otherDto, _jsonOptions)" exC3content = true ∧
    containsSub "JsonSerializer.Serialize(otherDto, _jsonOptions)"
      (fixPagedContent exC3content) = false ∧
    containsSub "var otherDto = BuildOther();" (fixPagedContent exC3content) = true :=
  ⟨by decide, by decide, by decide⟩

/-- C3 (amended): the per-match content update of
fix_single_object_tests.py — `content.replace(match_text, new_method)` — is
local: when the matched text occurs exactly once (no occurrence starts inside
the prefix and none lies in the suffix), every character outside the match's
span is preserved byte for byte. -/
theorem applyMethodRewrite_is_local
    (pre old new post : List Char) (hne : old ≠ [])
    (hfirst : ∀ i, i < pre.length → pfx old ((pre ++ old ++ post).drop i) = false)
    (hpost : hasSub old post = false) :
    applyMethodRewrite (pre ++ old ++ post) old new = pre ++ new ++ post := by
  unfold applyMethodRewrite
  rw [replaceList_first old new hne pre post hfirst, replaceList_no_occ old new post hpost]

/-- Witness for `applyMethodRewrite_is_local` at a concrete decomposition. -/
theorem applyMethodRewrite_is_local_witness :
    applyMethodRewrite
        ("int a = 1;\n".data ++ "var expectedResponse = new Contact();".data
          ++ "\nAssert.Pass();".data)
        "var expectedResponse = new Contact();".data
        "var expectedContact = new Contact();".data
      = "int a = 1;\n".data ++ "var expectedContact = new Contact();".data
          ++ "\nAssert.Pass();".data :=
  applyMethodRewrite_is_local "int a = 1;\n".data
    "var expectedResponse = new Contact();".data
    "var expectedContact = new Contact();".data
    "\nAssert.Pass();".data (by decide) (by decide) (by decide)

/-- C4 (counterexample): the resolver of quick_fix_remaining.py does not
return the nearest prior declaration.  In `exC4content` the nearest
declaration binding `expectedResponse` before the serialization line
constructs a plain `Contact` (as the backward line scan confirms), yet the
script classifies the site by searching the whole preceding text for
`new PagedResponse<` and picks the `ApiResponse<PagedResponse<>>` wrapper of
the older, farther declaration instead of `ApiResponse<Contact>`. -/
theorem quickFix_overrides_nearest_declaration :
    quickFixWrapper exC4content = some "ApiResponse<PagedResponse<>>" ∧
    (resolveDecl exC4above).bind extractDeclType = some "Contact".data ∧
    ("ApiResponse<PagedResponse<>>" : String) ≠ "ApiResponse<Contact>" :=
  ⟨by decide, by decide, by decide⟩

/-- C4 (amended): the backward scanner of fix_all_pagedresponse.py returns
the nearest prior declaration — the most recent line above the match whose
stripped text contains the declaration trigger wins, regardless of older
declarations below it — and a match with no resolvable declaration is left
entirely unrewritten (the line is emitted unchanged), with no failure. -/
theorem resolveDecl_nearest_wins_and_unresolved_skips :
    (∀ (newer : List String) (d : String) (older : List String),
        (∀ q ∈ newer, hasSub declTriggerS.data (trimList q.data) = false) →
        hasSub declTriggerS.data (trimList d.data) = true →
        resolveDecl (newer ++ d :: older) = some d) ∧
    (∀ (above : List String) (line : String),
        (∀ q ∈ above, hasSub declTriggerS.data (trimList q.data) = false) →
        serLineStep above line = [line]) := by
  constructor
  · intro newer d older
    induction newer with
    | nil =>
      intro _ hd
      simp only [List.nil_append]
      unfold resolveDecl
      exact List.find?_cons_of_pos _ hd
    | cons q qs ih =>
      intro hq hd
      have hqh : hasSub declTriggerS.data (trimList q.data) = false := hq q (by simp)
      simp only [List.cons_append]
      unfold resolveDecl
      rw [List.find?_cons_of_neg _ (by simp [hqh])]
      exact ih (fun r hr => hq r (by simp [hr])) hd
  · intro above line hq
    have hnone : resolveDecl above = none := by
      unfold resolveDecl
      rw [List.find?_eq_none]
      intro x hx
      simp [hq x hx]
    unfold serLineStep
    by_cases hc : containsSub serTriggerS line = true
    · rw [if_pos hc, hnone]
      rfl
    · rw [if_neg hc]

/-- Witness for `resolveDecl_nearest_wins_and_unresolved_skips`: the nearer
`Contact` declaration wins over the older PagedResponse declaration, and a
serialization line with no prior declaration at all is left unchanged. -/
theorem resolveDecl_nearest_wins_witness :
    resolveDecl (exC4newer ++ exC4decl :: exC4older) = some exC4decl ∧
    serLineStep ["            // Arrange"]
        "            var jsonResponse = JsonSerializer.Serialize(expectedResponse, _jsonOptions);"
      = ["            var jsonResponse = JsonSerializer.Serialize(expectedResponse, _jsonOptions);"] :=
  ⟨resolveDecl_nearest_wins_and_unresolved_skips.1 exC4newer exC4decl exC4older
      (by decide) (by decide),
   resolveDecl_nearest_wins_and_unresolved_skips.2 ["            // Arrange"] _ (by decide)⟩

/-- C5: when the resolved declaration's type cannot be extracted (the
`new\s+(\w+(?:<[^>]+>)?)\s*{` search fails — malformed or unmatched generic
brackets — or no declaration resolves at all), fix_all_pagedresponse.py
aborts synthesis for that match: the serialization line is emitted exactly
as it was, nothing is inserted, and the (total) per-file transformation never
destroys input — every input line survives in order, so the whole batch
continues.  The second conjunct states that insertion-only shape for all
files. -/
theorem serLineStep_skips_when_type_unextractable :
    (∀ (above : List String) (line : String),
        containsSub serTriggerS line = true →
        (resolveDecl above).bind extractDeclType = none →
        serLineStep above line = [line]) ∧
    (∀ ls : List String, ls.Sublist (fixAllLines ls)) := by
  constructor
  · intro above line hc ho
    unfold serLineStep
    rw [if_pos hc, ho]
  · intro ls
    exact sublist_fixAllGo [] ls

/-- Witness for `serLineStep_skips_when_type_unextractable`: a declaration
with an unterminated generic bracket resolves but does not extract, and the
match is skipped. -/
theorem serLineStep_skips_witness :
    serLineStep exC5above exC5line = [exC5line] ∧
    ([exC5line] : List String).Sublist (fixAllLines [exC5line]) :=
  ⟨serLineStep_skips_when_type_unextractable.1 exC5above exC5line (by decide) (by decide),
   serLineStep_skips_when_type_unextractable.2 [exC5line]⟩

/-- C6: final_fix_script.py never persists a rewrite.  Its replacement
callback unpacks the five regex groups into four variables, so every found
match raises `ValueError` before any write can happen (and even on the dead
normal path the write-back flag `modified` is a closure-local that the
enclosing scope never sees).  For every decomposition of a file around a
found match, the run aborts with the unpack error and no file is written —
contradicting the claim that a file with at least one applied rewrite is
persisted. -/
theorem applyApiResponseWrapper_never_writes :
    ∀ pre g1 name body g4 w g5 post : String,
      applyApiResponseWrapperRun pre g1 name body g4 w g5 post
        = .error "ValueError: too many values to unpack (expected 4)" :=
  fun _ _ _ _ _ _ _ _ => rfl

/-- Witness for `applyApiResponseWrapper_never_writes` at a concrete file
containing a single-object test that needs the wrapper. -/
theorem applyApiResponseWrapper_never_writes_witness :
    applyApiResponseWrapperRun exC6pre exC6g1 exC6name exC6body exC6g4 exC6w exC6g5 exC6post
      = .error "ValueError: too many values to unpack (expected 4)" :=
  applyApiResponseWrapper_never_writes exC6pre exC6g1 exC6name exC6body exC6g4 exC6w exC6g5
    exC6post

/-- C7: fix_all_pagedresponse.py does not re-point the trailing
serialization call.  On a minimal PagedResponse test the output keeps the
original `JsonSerializer.Serialize(expectedResponse, _jsonOptions)` line
verbatim after the inserted wrapper, and the synthesized `apiResponse`
variable is never passed to `Serialize` anywhere in the rewritten file. -/
theorem fixAllPaged_keeps_original_serialize_argument :
    fixAllLines exC7lines =
      ["        var expectedResponse = new PagedResponse<Matter> \x7b Data = items \x7d;",
       "        var apiResponse = new ApiResponse<PagedResponse<Matter>> \x7b Data = expectedResponse \x7d;",
       "        var jsonResponse = JsonSerializer.Serialize(expectedResponse, _jsonOptions);"] ∧
    (fixAllLines exC7lines).all
      (fun l => !(containsSub "JsonSerializer.Serialize(apiResponse" l)) = true :=
  ⟨by decide, by decide⟩

/-- C8 (counterexample): the batch of fix_single_object_tests.py is not
partial-failure tolerant.  With an unreadable first file the uncaught
exception aborts the run: the result list is empty — the second, readable
file is never processed — instead of the first file being skipped and
processing continuing. -/
theorem singleObjectBatch_aborts_on_unreadable_file :
    singleObjectBatch [.error "EACCES: permission denied", .ok exC8file]
      = ([], some "EACCES: permission denied") := rfl

/-- C8 (amended): fix_all_pagedresponse.py wraps each file's processing in
its own handler, so an I/O failure is confined to that file: every readable
file in the batch is processed to its rewritten form regardless of errors on
any other file. -/
theorem fixAllBatch_processes_files_independently :
    ∀ (files : List (Except String (List String))) (i : Nat) (ls : List String),
      files.get? i = some (.ok ls) →
      (fixAllBatch files).get? i = some (.ok (fixAllLines ls)) := by
  intro files i ls h
  unfold fixAllBatch
  rw [List.get?_map, h]
  rfl

/-- Witness for `fixAllBatch_processes_files_independently`: the second file
is processed even though the first is unreadable. -/
theorem fixAllBatch_processes_files_independently_witness :
    (fixAllBatch [.error "EACCES: permission denied", .ok exC8lines]).get? 1
      = some (.ok (fixAllLines exC8lines)) :=
  fixAllBatch_processes_files_independently
    [.error "EACCES: permission denied", .ok exC8lines] 1 exC8lines rfl

/-- C9 (counterexample): the summary of fix_response_patterns.py does not
count distinct files.  On a file modified by both the single-object pass and
the PaginationInfo pass the driver adds one per pass, reporting 2 while
exactly 1 distinct file was modified. -/
theorem responsePatterns_double_counts_file :
    totalFixesRP [exC9file] = 2 ∧ distinctModifiedRP [exC9file] = 1 :=
  ⟨by decide, by decide⟩

/-- C9 (amended): the driver of fix_single_object_tests.py does count
distinct files — its summary equals the number of files whose fixer reported
a modification, each contributing exactly one. -/
theorem singleObjectDriver_counts_each_modified_file_once :
    ∀ files : List String,
      totalFixesSingleDriver files
        = (files.filter (fun f => (fixSingleContent f).2)).length := by
  intro files
  have h := totalFixesSingleDriver_shift files 0
  simpa [totalFixesSingleDriver] using h

/-- Witness for `singleObjectDriver_counts_each_modified_file_once`. -/
theorem singleObjectDriver_counts_witness :
    totalFixesSingleDriver ["public class Empty \x7b \x7d"]
      = ((["public class Empty \x7b \x7d"] : List String).filter
          (fun f => (fixSingleContent f).2)).length :=
  singleObjectDriver_counts_each_modified_file_once ["public class Empty \x7b \x7d"]

/-- C10: the `_jsonOptions` fixer of fix_tests.py is a marker-guarded no-op
on its own outputs: a file already containing `_jsonOptions` is never
written; any file it does write contains `_jsonOptions` (the inserted
initialization carries the marker, and the serialize-call pass either leaves
the text unchanged or itself inserts the marker); hence re-running the fixer
on any of its outputs writes nothing. -/
theorem fixTests_jsonoptions_idempotent :
    (∀ c : String, containsSub "_jsonOptions" c = true → fixTestsFile c = none) ∧
    (∀ c c2 : String, fixTestsFile c = some c2 → containsSub "_jsonOptions" c2 = true) ∧
    (∀ c c2 : String, fixTestsFile c = some c2 → fixTestsFile c2 = none) := by
  have h1 : ∀ c : String, containsSub "_jsonOptions" c = true → fixTestsFile c = none := by
    intro c h
    unfold fixTestsFile
    rw [if_pos h]
  have h2 : ∀ c c2 : String, fixTestsFile c = some c2 →
      containsSub "_jsonOptions" c2 = true := by
    intro c c2 h
    by_cases hm : containsSub "_jsonOptions" c = true
    · simp only [fixTestsFile, if_pos hm] at h
      exact Option.noConfusion h
    · cases hh : reSearch httpPat c.data with
      | none =>
        simp only [fixTestsFile, if_neg hm, hh] at h
        exact Option.noConfusion h
      | some w1 =>
        cases hcs : reSearch ctorPat (reSub httpPat httpRepl c.data) with
        | none =>
          simp only [fixTestsFile, if_neg hm, hh, hcs] at h
          exact Option.noConfusion h
        | some w2 =>
          simp only [fixTestsFile, if_neg hm, hh, hcs, Option.some.injEq] at h
          subst h
          show hasSub "_jsonOptions".data (reSub serUpdatePat serUpdateRepl
            (reSub ctorPat ctorRepl (reSub httpPat httpRepl c.data))) = true
          have hctor : hasSub "_jsonOptions".data
              (reSub ctorPat ctorRepl (reSub httpPat httpRepl c.data)) = true := by
            refine reSub_search_inserts ctorPat ctorRepl "_jsonOptions".data ?_ _ w2 hcs
            intro caps rest
            unfold ctorRepl
            exact hasSub_append_right _ _ _ (by decide)
          have hser : ∀ (caps : List (List Char)) (rest : List Char),
              hasSub "_jsonOptions".data (serUpdateRepl caps rest) = true := by
            intro caps rest
            unfold serUpdateRepl
            exact hasSub_append_right _ _ _ (by decide)
          rcases reSub_keeps_or_inserts serUpdatePat serUpdateRepl "_jsonOptions".data hser
              (reSub ctorPat ctorRepl (reSub httpPat httpRepl c.data)) with he | he
          · rw [he]
            exact hctor
          · exact he
  exact ⟨h1, h2, fun c c2 h => h1 c2 (h2 c c2 h)⟩

/-- Witness for `fixTests_jsonoptions_idempotent`: a marked file is skipped;
a concrete unmarked file is rewritten to a marked one, and re-running the
fixer on that output is a no-op. -/
theorem fixTests_jsonoptions_idempotent_witness :
    fixTestsFile exC10marked = none ∧
    containsSub "_jsonOptions" ((fixTestsFile exC10file).getD "") = true ∧
    fixTestsFile ((fixTestsFile exC10file).getD "") = none :=
  ⟨fixTests_jsonoptions_idempotent.1 exC10marked (by decide),
   fixTests_jsonoptions_idempotent.2.1 exC10file ((fixTestsFile exC10file).getD "")
     (by decide),
   fixTests_jsonoptions_idempotent.2.2 exC10file ((fixTestsFile exC10file).getD "")
     (by decide)⟩
